import Mathlib

/-!
Shallow embedding of `src/run.py` (class `Chair`): a stepwise simulation of a
stool that walks by alternately shifting its front and back leg pairs.
Python floats are modelled by real numbers; `math.asin` and `math.acos`
raise `ValueError` outside `[-1, 1]`, modelled by `Except`; `math.tan`
never raises and is modelled by `Real.tan`.
-/

namespace StoolWalk

/-- Configuration stored by `Chair.__init__` (`src/run.py`, lines 101-111). -/
structure Chair where
  length_wood : ℝ
  length_leg : ℝ
  length_chair : ℝ
  wood_weight : ℝ
  time : ℝ
  pause : ℝ
  time_step : ℝ
  wood_mu : ℝ

/-- Derived threshold `self.alpha_max = math.atan(wood_mu)` (line 108). -/
noncomputable def Chair.alpha_max (c : Chair) : ℝ := Real.arctan c.wood_mu

/-- Mutable simulation state: the four positions stored on the object
(lines 112-115) together with the local variables `timer` and `total_way`
of `Chair.move` (lines 139-140). -/
structure St where
  pos_1 : ℝ
  pos_2 : ℝ
  pos_chair_1 : ℝ
  pos_chair_2 : ℝ
  timer : ℝ
  total_way : ℝ

/-- Initial state built by the constructor: `pos_1 = length_chair`,
`pos_2 = 0`, seat edges coinciding with the leg positions, and the local
counters of `move` starting at zero. -/
def Chair.init (c : Chair) : St :=
  ⟨c.length_chair, 0, c.length_chair, 0, 0, 0⟩

/-- Failure outcomes of `move`, carrying the object state as it is at the
moment the exception escapes.  `invalidValueAngle` models
`InvalidValueAngle` (lines 24-39), `invalidValueError` models
`InvalidValueError` (lines 8-21), and `mathDomainError` models the
`ValueError` that `math.asin` or `math.acos` raise out of their domain. -/
inductive Fail where
  | invalidValueAngle (value : ℝ) (st : St)
  | invalidValueError (st : St)
  | mathDomainError (st : St)

/-- `math.acos`: defined on `[-1, 1]`, raising `ValueError` elsewhere. -/
noncomputable def pyAcos (x : ℝ) : Except Unit ℝ :=
  if -1 ≤ x ∧ x ≤ 1 then .ok (Real.arccos x) else .error ()

/-- `math.asin`: defined on `[-1, 1]`, raising `ValueError` elsewhere. -/
noncomputable def pyAsin (x : ℝ) : Except Unit ℝ :=
  if -1 ≤ x ∧ x ≤ 1 then .ok (Real.arcsin x) else .error ()

/-- The tilt-angle expression shared by both half-steps of `move`
(lines 143-144 and 151-152):
`asin((length_leg - tan(acos(abs(edge - leg) / length_leg)) * way) / length_chair)`. -/
noncomputable def angleOf (c : Chair) (edge leg way : ℝ) : Except Unit ℝ :=
  match pyAcos (|edge - leg| / c.length_leg) with
  | .error _ => .error ()
  | .ok a => pyAsin ((c.length_leg - Real.tan a * way) / c.length_chair)

/-- Front half-step (lines 142-149): advance `pos_1` by `way_1`, compute and
check the front angle, then accumulate the distance, advance the front seat
edge and the timer. -/
noncomputable def frontHalf (c : Chair) (way_1 : ℝ) (s : St) : Except Fail St :=
  let s1 : St := { s with pos_1 := s.pos_1 + way_1 }
  match angleOf c s1.pos_chair_1 s1.pos_1 way_1 with
  | .error _ => .error (.mathDomainError s1)
  | .ok alpha_1 =>
    if c.alpha_max < alpha_1 then .error (.invalidValueAngle alpha_1 s1)
    else .ok { s1 with
                total_way := s1.total_way + way_1,
                pos_chair_1 := s1.pos_chair_1 + way_1,
                timer := s1.timer + (c.time_step + c.pause) }

/-- Back half-step (lines 150-157): advance the back seat edge by `way_1`,
compute and check the back angle from the not-yet-moved `pos_2`, then
advance `pos_2` by `way_2` and the timer. -/
noncomputable def backHalf (c : Chair) (way_1 way_2 : ℝ) (s : St) : Except Fail St :=
  let s1 : St := { s with pos_chair_2 := s.pos_chair_2 + way_1 }
  match angleOf c s1.pos_chair_2 s1.pos_2 way_2 with
  | .error _ => .error (.mathDomainError s1)
  | .ok alpha_2 =>
    if c.alpha_max < alpha_2 then .error (.invalidValueAngle alpha_2 s1)
    else .ok { s1 with
                pos_2 := s1.pos_2 + way_2,
                timer := s1.timer + (c.time_step + c.pause) }

/-- `Chair._check_position` (lines 117-126). -/
noncomputable def check_position (s : St) : Except Fail St :=
  if s.pos_chair_1 - (s.pos_chair_1 - s.pos_chair_2) / 2 > s.pos_1 ∨
      s.pos_chair_1 - (s.pos_chair_1 - s.pos_chair_2) / 2 < s.pos_2 then
    .error (.invalidValueError s)
  else .ok s

/-- One iteration of the `while` loop of `move` (lines 141-158): front
half-step, back half-step, then the position check. -/
noncomputable def body (c : Chair) (way_1 way_2 : ℝ) (s : St) : Except Fail St :=
  match frontHalf c way_1 s with
  | .error e => .error e
  | .ok s1 =>
    match backHalf c way_1 way_2 s1 with
    | .error e => .error e
    | .ok s2 => check_position s2

/-- The `while timer < self.time` loop of `move`, with explicit fuel;
`none` means the fuel ran out with the loop still running. -/
noncomputable def loop (c : Chair) (way_1 way_2 : ℝ) : ℕ → St → Option (Except Fail ℝ)
  | 0, s => if s.timer < c.time then none else some (.ok s.total_way)
  | n + 1, s =>
    if s.timer < c.time then
      match body c way_1 way_2 s with
      | .error e => some (.error e)
      | .ok s1 => loop c way_1 way_2 n s1
    else some (.ok s.total_way)

/-- Fuel sufficient for the loop whenever `time_step + pause` is positive:
each iteration advances `timer` by `2 * (time_step + pause)`. -/
noncomputable def fuel (c : Chair) : ℕ := ⌈c.time / (2 * (c.time_step + c.pause))⌉₊

/-- `Chair.move` (lines 128-159), run from the constructor state.  A `none`
result models nontermination, possible only when `time_step + pause ≤ 0`. -/
noncomputable def Chair.move (c : Chair) (way_1 way_2 : ℝ) : Option (Except Fail ℝ) :=
  loop c way_1 way_2 (fuel c) c.init

/-- The reference configuration `Chair(40, 60, 80, 2, 1000, 2, 2, 0.1)`
built at line 163. -/
noncomputable def refChair : Chair := ⟨40, 60, 80, 2, 1000, 2, 2, 1 / 10⟩

/-- The angle computed by the very first front half-step of `move`, as a
function of `way_1`: the constructor state has `pos_chair_1 = pos_1`, and
`move` first advances `pos_1` by `way_1`. -/
noncomputable def firstFrontAngle (c : Chair) (way : ℝ) : Except Unit ℝ :=
  angleOf c c.init.pos_chair_1 (c.init.pos_1 + way) way

/-- A small auxiliary configuration with a high friction coefficient, used
to exercise the non-failing paths: `Chair(1, 1, 2, 1, 1, 0, 1, 2)`. -/
noncomputable def chairB : Chair := ⟨1, 1, 2, 1, 1, 0, 1, 2⟩

/-- A degenerate configuration with a zero time budget: its loop exits at
once, returning distance `0`. -/
noncomputable def chairZ : Chair := ⟨0, 0, 0, 0, 0, 0, 0, 0⟩

/-! ### Helper lemmas -/

theorem sqrt_le_of_sq_le (a b : ℝ) (hb : 0 ≤ b) (h : a ≤ b ^ 2) :
    Real.sqrt a ≤ b := by
  calc Real.sqrt a ≤ Real.sqrt (b ^ 2) := Real.sqrt_le_sqrt h
  _ = b := Real.sqrt_sq hb

theorem le_sqrt_of_sq_le (a b : ℝ) (ha : 0 ≤ a) (h : a ^ 2 ≤ b) :
    a ≤ Real.sqrt b := by
  calc a = Real.sqrt (a ^ 2) := (Real.sqrt_sq ha).symm
  _ ≤ Real.sqrt b := Real.sqrt_le_sqrt h

theorem arctan_tenth_lt_arcsin_three_quarters :
    Real.arctan (1 / 10) < Real.arcsin (3 / 4) := by
  rw [Real.arctan_eq_arcsin]
  have hs : (1:ℝ) ≤ Real.sqrt (1 + (1 / 10) ^ 2) :=
    le_sqrt_of_sq_le 1 (1 + (1 / 10) ^ 2) (by norm_num) (by norm_num)
  have hx0 : (0:ℝ) ≤ 1 / 10 / Real.sqrt (1 + (1 / 10) ^ 2) :=
    div_nonneg (by norm_num) (Real.sqrt_nonneg _)
  have hx : (1:ℝ) / 10 / Real.sqrt (1 + (1 / 10) ^ 2) ≤ 1 / 10 :=
    div_le_self (by norm_num) hs
  have := Real.strictMonoOn_arcsin
    (Set.mem_Icc.mpr ⟨by linarith, by linarith⟩)
    (Set.mem_Icc.mpr ⟨by norm_num, by norm_num⟩)
    (by linarith : (1:ℝ) / 10 / Real.sqrt (1 + (1 / 10) ^ 2) < 3 / 4)
  exact this

theorem arcsin_half_le_arctan_two :
    Real.arcsin (1 / 2) ≤ Real.arctan 2 := by
  rw [Real.arctan_eq_arcsin]
  have h5 : Real.sqrt (1 + 2 ^ 2) ≤ 4 :=
    sqrt_le_of_sq_le (1 + 2 ^ 2) 4 (by norm_num) (by norm_num)
  have h5p : (0:ℝ) < Real.sqrt (1 + 2 ^ 2) := by
    have := le_sqrt_of_sq_le 1 (1 + 2 ^ 2) (by norm_num) (by norm_num)
    linarith
  have hx : (1:ℝ) / 2 ≤ 2 / Real.sqrt (1 + 2 ^ 2) := by
    rw [div_le_div_iff (by norm_num) h5p]
    linarith
  have hx1 : (2:ℝ) / Real.sqrt (1 + 2 ^ 2) ≤ 1 := by
    rw [div_le_one h5p]
    have := le_sqrt_of_sq_le 2 (1 + 2 ^ 2) (by norm_num) (by norm_num)
    linarith
  exact Real.monotone_arcsin hx

/-- Evaluation of the tilt-angle expression at the constructor state of the
reference configuration with a zero displacement: the `tan` term vanishes
and the angle is `asin(length_leg / length_chair) = asin(3/4)`. -/
theorem refAngle_zero :
    angleOf refChair refChair.init.pos_chair_1 (refChair.init.pos_1 + 0) 0 =
      .ok (Real.arcsin (3 / 4)) := by
  unfold angleOf pyAcos pyAsin refChair Chair.init
  norm_num

/-! ### C5: the position check -/

/-- C5: `_check_position`, run after every full step pair, raises
`InvalidValueError` exactly when the seat midpoint
`pos_chair_1 - (pos_chair_1 - pos_chair_2) / 2` lies strictly outside the
closed interval `[pos_2, pos_1]`; a midpoint exactly at either endpoint
passes the check. -/
theorem check_position_strict (s : St) :
    (check_position s = .error (.invalidValueError s) ↔
      s.pos_1 < s.pos_chair_1 - (s.pos_chair_1 - s.pos_chair_2) / 2 ∨
        s.pos_chair_1 - (s.pos_chair_1 - s.pos_chair_2) / 2 < s.pos_2) ∧
    (check_position s = .ok s ↔
      s.pos_2 ≤ s.pos_chair_1 - (s.pos_chair_1 - s.pos_chair_2) / 2 ∧
        s.pos_chair_1 - (s.pos_chair_1 - s.pos_chair_2) / 2 ≤ s.pos_1) := by
  unfold check_position
  constructor
  · split_ifs with h
    · exact iff_of_true rfl h
    · exact iff_of_false (by simp) h
  · split_ifs with h
    · refine iff_of_false (by simp) (fun hc => ?_)
      rcases h with h | h
      · linarith [hc.2]
      · linarith [hc.1]
    · push_neg at h
      exact iff_of_true rfl ⟨h.2, h.1⟩

/-- A front half-step whose advanced leg position is farther than
`length_leg` from the front seat edge gives `acos` an out-of-domain
argument. -/
theorem frontHalf_far (c : Chair) (way_1 : ℝ) (s : St)
    (hleg : 0 < c.length_leg)
    (hfar : c.length_leg < |s.pos_chair_1 - (s.pos_1 + way_1)|) :
    frontHalf c way_1 s =
      .error (.mathDomainError { s with pos_1 := s.pos_1 + way_1 }) := by
  have h1 : (1:ℝ) < |s.pos_chair_1 - (s.pos_1 + way_1)| / c.length_leg :=
    (one_lt_div hleg).mpr hfar
  have hcond : ¬(-1 ≤ |s.pos_chair_1 - (s.pos_1 + way_1)| / c.length_leg ∧
      |s.pos_chair_1 - (s.pos_1 + way_1)| / c.length_leg ≤ 1) :=
    fun hc => absurd hc.2 (not_le.mpr h1)
  simp only [frontHalf, angleOf, pyAcos]
  rw [if_neg hcond]

/-! ### C7: out-of-domain `acos` -/

/-- C7: when the advanced front leg position is farther than `length_leg`
from the front seat edge, the front half-step fails with the generic
`math` domain error, a constructor distinct from both named failures. -/
theorem frontHalf_domain (c : Chair) (way_1 : ℝ) (s : St)
    (hleg : 0 < c.length_leg)
    (hfar : c.length_leg < |s.pos_chair_1 - (s.pos_1 + way_1)|) :
    frontHalf c way_1 s =
      .error (.mathDomainError { s with pos_1 := s.pos_1 + way_1 }) ∧
    (∀ v st1 st2, Fail.mathDomainError st1 ≠ Fail.invalidValueAngle v st2) ∧
    (∀ st1 st2, Fail.mathDomainError st1 ≠ Fail.invalidValueError st2) := by
  refine ⟨frontHalf_far c way_1 s hleg hfar, ?_, ?_⟩
  · intro v st1 st2 h
    cases h
  · intro st1 st2 h
    cases h

/-- Witness for C7 at the reference configuration with `way_1 = 200`. -/
theorem frontHalf_domain_w :
    frontHalf refChair 200 refChair.init =
      .error (.mathDomainError
        { refChair.init with pos_1 := refChair.init.pos_1 + 200 }) :=
  (frontHalf_domain refChair 200 refChair.init
    (by norm_num [refChair])
    (by norm_num [refChair, Chair.init])).1

/-! ### C10: state on an angle failure in the front half-step -/

/-- C10: when the front half-step raises `InvalidValueAngle`, the escaping
state has `pos_1` already advanced by `way_1`, while the other three
positions, the accumulated distance and the timer keep the values they had
before the half-step. -/
theorem frontHalf_angle_frame (c : Chair) (way_1 : ℝ) (s : St) (v : ℝ) (st : St)
    (h : frontHalf c way_1 s = .error (.invalidValueAngle v st)) :
    st.pos_1 = s.pos_1 + way_1 ∧ st.pos_2 = s.pos_2 ∧
    st.pos_chair_1 = s.pos_chair_1 ∧ st.pos_chair_2 = s.pos_chair_2 ∧
    st.timer = s.timer ∧ st.total_way = s.total_way := by
  simp only [frontHalf] at h
  split at h
  · cases h
  · split at h
    · simp only [Except.error.injEq, Fail.invalidValueAngle.injEq] at h
      obtain ⟨h1, h2⟩ := h
      subst h2
      exact ⟨rfl, rfl, rfl, rfl, rfl, rfl⟩
    · cases h

/-- Concrete evaluation: with both displacements zero, the first front
half-step of the reference configuration raises `InvalidValueAngle` carrying
`asin(3/4)`, because `asin(60/80) = asin(3/4) > atan(0.1)`. -/
theorem frontHalf_ref_zero :
    frontHalf refChair 0 refChair.init =
      .error (.invalidValueAngle (Real.arcsin (3 / 4))
        { refChair.init with pos_1 := refChair.init.pos_1 + 0 }) := by
  have halt : refChair.alpha_max < Real.arcsin (3 / 4) := by
    have h := arctan_tenth_lt_arcsin_three_quarters
    simpa [Chair.alpha_max, refChair] using h
  simp only [frontHalf, refAngle_zero]
  rw [if_pos halt]

/-- Concrete evaluation: the corresponding back half-step also raises
`InvalidValueAngle (asin (3/4))`. -/
theorem refAngleBack_zero :
    angleOf refChair (refChair.init.pos_chair_2 + 0) refChair.init.pos_2 0 =
      .ok (Real.arcsin (3 / 4)) := by
  unfold angleOf pyAcos pyAsin refChair Chair.init
  norm_num

theorem backHalf_ref_zero :
    backHalf refChair 0 0 refChair.init =
      .error (.invalidValueAngle (Real.arcsin (3 / 4))
        { refChair.init with pos_chair_2 := refChair.init.pos_chair_2 + 0 }) := by
  have halt : refChair.alpha_max < Real.arcsin (3 / 4) := by
    have h := arctan_tenth_lt_arcsin_three_quarters
    simpa [Chair.alpha_max, refChair] using h
  simp only [backHalf, refAngleBack_zero]
  rw [if_pos halt]

/-! ### C4: the strict angle comparison -/

/-- C4: a half-step raises `InvalidValueAngle` exactly when its computed
tilt angle strictly exceeds `alpha_max`, and the exception carries that
computed angle; an angle equal to `alpha_max` never raises. -/
theorem angle_check_strict (c : Chair) (way_1 way_2 : ℝ) (s : St) (a : ℝ) :
    (angleOf c s.pos_chair_1 (s.pos_1 + way_1) way_1 = .ok a →
      (((∃ st, frontHalf c way_1 s = .error (.invalidValueAngle a st)) ↔
          c.alpha_max < a) ∧
        ∀ v st, frontHalf c way_1 s = .error (.invalidValueAngle v st) → v = a)) ∧
    (angleOf c (s.pos_chair_2 + way_1) s.pos_2 way_2 = .ok a →
      (((∃ st, backHalf c way_1 way_2 s = .error (.invalidValueAngle a st)) ↔
          c.alpha_max < a) ∧
        ∀ v st, backHalf c way_1 way_2 s = .error (.invalidValueAngle v st) → v = a)) := by
  constructor
  · intro hA
    simp only [frontHalf, hA]
    by_cases hc : c.alpha_max < a
    · rw [if_pos hc]
      refine ⟨iff_of_true ⟨_, rfl⟩ hc, fun v st h => ?_⟩
      simp only [Except.error.injEq, Fail.invalidValueAngle.injEq] at h
      exact h.1.symm
    · rw [if_neg hc]
      exact ⟨iff_of_false (fun ⟨st, hst⟩ => by cases hst) hc,
        fun v st h => by cases h⟩
  · intro hA
    simp only [backHalf, hA]
    by_cases hc : c.alpha_max < a
    · rw [if_pos hc]
      refine ⟨iff_of_true ⟨_, rfl⟩ hc, fun v st h => ?_⟩
      simp only [Except.error.injEq, Fail.invalidValueAngle.injEq] at h
      exact h.1.symm
    · rw [if_neg hc]
      exact ⟨iff_of_false (fun ⟨st, hst⟩ => by cases hst) hc,
        fun v st h => by cases h⟩

/-- Witness for C4: the front half-step of the reference configuration with
`way_1 = 0` computes the angle `asin(3/4)`, and the raise condition is
equivalent to `alpha_max < asin(3/4)`. -/
theorem angle_check_strict_w :
    ((∃ st, frontHalf refChair 0 refChair.init =
        .error (.invalidValueAngle (Real.arcsin (3 / 4)) st)) ↔
      refChair.alpha_max < Real.arcsin (3 / 4)) ∧
    ∀ v st, frontHalf refChair 0 refChair.init =
        .error (.invalidValueAngle v st) → v = Real.arcsin (3 / 4) :=
  (angle_check_strict refChair 0 0 refChair.init (Real.arcsin (3 / 4))).1
    refAngle_zero

/-! ### C6: ordering of updates in the back half-step -/

/-- C6: the back half-step advances the back seat edge by `way_1` before the
back angle is computed, computes the angle from the not-yet-advanced
`pos_2`, and advances `pos_2` by `way_2` only after the check passes. -/
theorem backHalf_order (c : Chair) (way_1 way_2 : ℝ) (s : St) :
    (∀ st, backHalf c way_1 way_2 s = .ok st →
        st = { s with pos_chair_2 := s.pos_chair_2 + way_1,
                      pos_2 := s.pos_2 + way_2,
                      timer := s.timer + (c.time_step + c.pause) }) ∧
    (∀ v st, backHalf c way_1 way_2 s = .error (.invalidValueAngle v st) →
        angleOf c (s.pos_chair_2 + way_1) s.pos_2 way_2 = .ok v ∧
        st.pos_2 = s.pos_2 ∧ st.pos_chair_2 = s.pos_chair_2 + way_1) := by
  constructor
  · intro st h
    simp only [backHalf] at h
    split at h
    · cases h
    · split at h
      · cases h
      · simp only [Except.ok.injEq] at h
        exact h.symm
  · intro v st h
    simp only [backHalf] at h
    split at h
    · cases h
    · rename_i a ha
      split at h
      · simp only [Except.error.injEq, Fail.invalidValueAngle.injEq] at h
        obtain ⟨hv, hst⟩ := h
        subst hv
        subst hst
        exact ⟨ha, rfl, rfl⟩
      · cases h

/-- Witness for C6: the back half-step of the reference configuration with
both displacements zero raises, the carried angle is the one computed from
the advanced seat edge and the old `pos_2`, and `pos_2` is unchanged. -/
theorem backHalf_order_w :
    angleOf refChair (refChair.init.pos_chair_2 + 0) refChair.init.pos_2 0 =
      .ok (Real.arcsin (3 / 4)) ∧
    ({ refChair.init with
        pos_chair_2 := refChair.init.pos_chair_2 + 0 } : St).pos_2 =
      refChair.init.pos_2 ∧
    ({ refChair.init with
        pos_chair_2 := refChair.init.pos_chair_2 + 0 } : St).pos_chair_2 =
      refChair.init.pos_chair_2 + 0 :=
  (backHalf_order refChair 0 0 refChair.init).2 (Real.arcsin (3 / 4)) _
    backHalf_ref_zero

/-- Witness for C10, instantiated at the reference configuration with
`way_1 = 0`, whose first front half-step raises `InvalidValueAngle`. -/
theorem frontHalf_angle_frame_w :
    ({ refChair.init with pos_1 := refChair.init.pos_1 + 0 } : St).pos_1 =
      refChair.init.pos_1 + 0 ∧
    ({ refChair.init with pos_1 := refChair.init.pos_1 + 0 } : St).pos_2 =
      refChair.init.pos_2 ∧
    ({ refChair.init with pos_1 := refChair.init.pos_1 + 0 } : St).pos_chair_1 =
      refChair.init.pos_chair_1 ∧
    ({ refChair.init with pos_1 := refChair.init.pos_1 + 0 } : St).pos_chair_2 =
      refChair.init.pos_chair_2 ∧
    ({ refChair.init with pos_1 := refChair.init.pos_1 + 0 } : St).timer =
      refChair.init.timer ∧
    ({ refChair.init with pos_1 := refChair.init.pos_1 + 0 } : St).total_way =
      refChair.init.total_way :=
  frontHalf_angle_frame refChair 0 refChair.init (Real.arcsin (3 / 4)) _
    frontHalf_ref_zero

/-! ### Field bookkeeping for a successful loop iteration -/

theorem frontHalf_ok (c : Chair) (way_1 : ℝ) (s s1 : St)
    (h : frontHalf c way_1 s = .ok s1) :
    s1 = { s with pos_1 := s.pos_1 + way_1,
                  pos_chair_1 := s.pos_chair_1 + way_1,
                  timer := s.timer + (c.time_step + c.pause),
                  total_way := s.total_way + way_1 } := by
  simp only [frontHalf] at h
  split at h
  · cases h
  · split at h
    · cases h
    · simp only [Except.ok.injEq] at h
      exact h.symm

theorem backHalf_ok (c : Chair) (way_1 way_2 : ℝ) (s s1 : St)
    (h : backHalf c way_1 way_2 s = .ok s1) :
    s1 = { s with pos_chair_2 := s.pos_chair_2 + way_1,
                  pos_2 := s.pos_2 + way_2,
                  timer := s.timer + (c.time_step + c.pause) } := by
  simp only [backHalf] at h
  split at h
  · cases h
  · split at h
    · cases h
    · simp only [Except.ok.injEq] at h
      exact h.symm

theorem check_position_ok (s s1 : St) (h : check_position s = .ok s1) :
    s1 = s := by
  simp only [check_position] at h
  split_ifs at h
  cases h
  rfl

/-- Field bookkeeping: a successful loop iteration adds exactly `way_1` to
the accumulated distance and `2 * (time_step + pause)` to the timer. -/
theorem body_ok_fields (c : Chair) (way_1 way_2 : ℝ) (s s2 : St)
    (h : body c way_1 way_2 s = .ok s2) :
    s2.total_way = s.total_way + way_1 ∧
    s2.timer = s.timer + (c.time_step + c.pause) + (c.time_step + c.pause) := by
  simp only [body] at h
  split at h
  · cases h
  · rename_i s1 h1
    split at h
    · cases h
    · rename_i s1x h2
      have e1 := frontHalf_ok c way_1 s s1 h1
      have e2 := backHalf_ok c way_1 way_2 s1 s1x h2
      have e3 := check_position_ok s1x s2 h
      subst e1
      subst e2
      subst e3
      exact ⟨rfl, rfl⟩

/-- Termination of the loop: while `timer` is at least `time - n * 2 *
(time_step + pause)`, fuel `n` suffices. -/
theorem loop_total (c : Chair) (way_1 way_2 : ℝ)
    (hts : 0 < c.time_step) (hp : 0 ≤ c.pause) :
    ∀ n : ℕ, ∀ s : St,
      c.time - s.timer ≤ (n : ℝ) * (2 * (c.time_step + c.pause)) →
      loop c way_1 way_2 n s ≠ none := by
  intro n
  induction n with
  | zero =>
    intro s hb
    simp only [Nat.cast_zero, zero_mul] at hb
    simp only [loop]
    rw [if_neg (by linarith : ¬ s.timer < c.time)]
    simp
  | succ n ih =>
    intro s hb
    simp only [loop]
    split_ifs with hcond
    · cases hbody : body c way_1 way_2 s with
      | error e => simp
      | ok s1 =>
        show loop c way_1 way_2 n s1 ≠ none
        apply ih
        have hf := (body_ok_fields c way_1 way_2 s s1 hbody).2
        rw [hf]
        push_cast at hb ⊢
        linarith
    · simp

/-! ### C9: termination -/

/-- C9: with positive `time_step` and `time` and nonnegative `pause`, `move`
terminates for every pair of displacements: after finitely many iterations
(each advancing the timer by `2 * (time_step + pause)`) it either returns
the accumulated distance or fails with one of the three failures. -/
theorem move_terminates (c : Chair) (way_1 way_2 : ℝ)
    (hts : 0 < c.time_step) (htime : 0 < c.time) (hp : 0 ≤ c.pause) :
    (∃ t, c.move way_1 way_2 = some (.ok t)) ∨
    (∃ e, c.move way_1 way_2 = some (.error e)) := by
  have h2 : (0:ℝ) < 2 * (c.time_step + c.pause) := by linarith
  have h3 : c.time / (2 * (c.time_step + c.pause)) ≤ (fuel c : ℝ) :=
    Nat.le_ceil (c.time / (2 * (c.time_step + c.pause)))
  have hb : c.time - (c.init).timer ≤
      (fuel c : ℝ) * (2 * (c.time_step + c.pause)) := by
    have h4 : c.time ≤ (fuel c : ℝ) * (2 * (c.time_step + c.pause)) :=
      (div_le_iff h2).mp h3
    simp only [Chair.init]
    linarith
  have hnn := loop_total c way_1 way_2 hts hp (fuel c) c.init hb
  cases hm : loop c way_1 way_2 (fuel c) c.init with
  | none => exact absurd hm hnn
  | some r =>
    cases r with
    | ok t => exact Or.inl ⟨t, hm⟩
    | error e => exact Or.inr ⟨e, hm⟩

/-- Witness for C9 at the reference configuration. -/
theorem move_terminates_w :
    (0:ℝ) < 2 ∧ (0:ℝ) < 1000 ∧ (0:ℝ) ≤ 2 ∧
    ((∃ t, refChair.move 0 0 = some (.ok t)) ∨
      (∃ e, refChair.move 0 0 = some (.error e))) :=
  ⟨by norm_num, by norm_num, by norm_num,
    move_terminates refChair 0 0 (by norm_num [refChair])
      (by norm_num [refChair]) (by norm_num [refChair])⟩

/-! ### C3: the returned distance accumulates only `way_1` -/

theorem loop_ok_total (c : Chair) (way_1 way_2 : ℝ) :
    ∀ n : ℕ, ∀ s : St, ∀ t : ℝ,
      loop c way_1 way_2 n s = some (.ok t) →
      ∃ k : ℕ, t = s.total_way + k * way_1 := by
  intro n
  induction n with
  | zero =>
    intro s t h
    simp only [loop] at h
    split_ifs at h with hc
    cases h
    exact ⟨0, by simp⟩
  | succ n ih =>
    intro s t h
    simp only [loop] at h
    split_ifs at h with hc
    · cases hbody : body c way_1 way_2 s with
      | error e =>
        rw [hbody] at h
        simp at h
      | ok s1 =>
        rw [hbody] at h
        have h2 : loop c way_1 way_2 n s1 = some (.ok t) := h
        obtain ⟨k, hk⟩ := ih s1 t h2
        have hf := (body_ok_fields c way_1 way_2 s s1 hbody).1
        refine ⟨k + 1, ?_⟩
        rw [hk, hf]
        push_cast
        ring
    · cases h
      exact ⟨0, by simp⟩

/-- C3: whenever `move` returns normally, the returned total distance is the
sum of the `way_1` increments over the completed front half-steps (one per
loop iteration); `way_2` is never added to the returned total, for every
configuration and every pair of displacements. -/
theorem move_total_front_only (c : Chair) (way_1 way_2 : ℝ) (t : ℝ)
    (h : c.move way_1 way_2 = some (.ok t)) :
    ∃ k : ℕ, t = k * way_1 := by
  obtain ⟨k, hk⟩ := loop_ok_total c way_1 way_2 (fuel c) c.init t h
  exact ⟨k, by simpa [Chair.init] using hk⟩

/-- Witness for C3 at the degenerate configuration, whose loop exits at once
with distance `0 = 0 * way_1`. -/
theorem move_total_front_only_w :
    chairZ.move 1 1 = some (.ok 0) ∧ ∃ k : ℕ, (0:ℝ) = k * 1 := by
  have hz : chairZ.move 1 1 = some (.ok 0) := by
    simp [Chair.move, fuel, chairZ, loop, Chair.init]
  exact ⟨hz, move_total_front_only chairZ 1 1 0 hz⟩

/-! ### C1: `move 0 0` -/

theorem fuel_ref : fuel refChair = 125 := by
  unfold fuel
  have h : refChair.time / (2 * (refChair.time_step + refChair.pause)) =
      (125:ℝ) := by norm_num [refChair]
  rw [h]
  simp

theorem body_ref_zero :
    body refChair 0 0 refChair.init =
      .error (.invalidValueAngle (Real.arcsin (3 / 4))
        { refChair.init with pos_1 := refChair.init.pos_1 + 0 }) := by
  simp only [body, frontHalf_ref_zero]

/-- C1 counterexample: at the reference configuration, `move 0 0` does not
return `0`; it raises `InvalidValueAngle (asin (3/4))` on the very first
front half-step, because the zero displacement makes the `tan` term vanish
and the computed angle is `asin(legLength / seatLength) > atan(0.1)`. -/
theorem move_ref_zero_fails :
    refChair.move 0 0 = some (.error (.invalidValueAngle (Real.arcsin (3 / 4))
      { refChair.init with pos_1 := refChair.init.pos_1 + 0 })) := by
  show loop refChair 0 0 (fuel refChair) refChair.init = _
  rw [fuel_ref]
  show loop refChair 0 0 (124 + 1) refChair.init = _
  simp only [loop, body_ref_zero]
  rw [if_pos (by norm_num [refChair, Chair.init] :
    (refChair.init).timer < refChair.time)]

/-- With a zero displacement and coinciding edge and leg positions, the
computed angle is `asin(length_leg / length_chair)`. -/
theorem angleOf_zero (c : Chair) (x : ℝ) (hleg : 0 < c.length_leg)
    (hchair : 0 < c.length_chair) (hlc : c.length_leg ≤ c.length_chair) :
    angleOf c x x 0 = .ok (Real.arcsin (c.length_leg / c.length_chair)) := by
  have hnn : (0:ℝ) ≤ c.length_leg / c.length_chair :=
    div_nonneg hleg.le hchair.le
  have h1 : c.length_leg / c.length_chair ≤ 1 := (div_le_one hchair).mpr hlc
  have h0 : |x - x| / c.length_leg = 0 := by simp
  unfold angleOf pyAcos
  rw [h0, if_pos (by norm_num : (-1:ℝ) ≤ 0 ∧ (0:ℝ) ≤ 1)]
  show pyAsin ((c.length_leg - Real.tan (Real.arccos 0) * 0) / c.length_chair) = _
  rw [mul_zero, sub_zero]
  unfold pyAsin
  rw [if_pos ⟨by linarith, h1⟩]

/-- A loop iteration with both displacements zero leaves the positions and
the accumulated distance untouched, provided the resting angle
`asin(length_leg / length_chair)` passes the check. -/
theorem body_zero_fixed (c : Chair) (hleg : 0 < c.length_leg)
    (hchair : 0 < c.length_chair) (hlc : c.length_leg ≤ c.length_chair)
    (hangle : Real.arcsin (c.length_leg / c.length_chair) ≤ c.alpha_max)
    (tm tw : ℝ) :
    body c 0 0 ⟨c.length_chair, 0, c.length_chair, 0, tm, tw⟩ =
      .ok ⟨c.length_chair, 0, c.length_chair, 0,
        tm + (c.time_step + c.pause) + (c.time_step + c.pause), tw⟩ := by
  have hfront : frontHalf c 0 ⟨c.length_chair, 0, c.length_chair, 0, tm, tw⟩ =
      .ok ⟨c.length_chair + 0, 0, c.length_chair + 0, 0,
        tm + (c.time_step + c.pause), tw + 0⟩ := by
    have hA : angleOf c c.length_chair (c.length_chair + 0) 0 =
        .ok (Real.arcsin (c.length_leg / c.length_chair)) := by
      rw [add_zero]
      exact angleOf_zero c c.length_chair hleg hchair hlc
    simp only [frontHalf, hA]
    rw [if_neg (not_lt.mpr hangle)]
  have hback : backHalf c 0 0 ⟨c.length_chair + 0, 0, c.length_chair + 0, 0,
      tm + (c.time_step + c.pause), tw + 0⟩ =
      .ok ⟨c.length_chair + 0, 0 + 0, c.length_chair + 0, 0 + 0,
        tm + (c.time_step + c.pause) + (c.time_step + c.pause), tw + 0⟩ := by
    have hA : angleOf c ((0:ℝ) + 0) 0 0 =
        .ok (Real.arcsin (c.length_leg / c.length_chair)) := by
      rw [add_zero]
      exact angleOf_zero c 0 hleg hchair hlc
    simp only [backHalf, hA]
    rw [if_neg (not_lt.mpr hangle)]
  have hcheck : check_position ⟨c.length_chair + 0, 0 + 0, c.length_chair + 0,
      0 + 0, tm + (c.time_step + c.pause) + (c.time_step + c.pause), tw + 0⟩ =
      .ok ⟨c.length_chair + 0, 0 + 0, c.length_chair + 0, 0 + 0,
        tm + (c.time_step + c.pause) + (c.time_step + c.pause), tw + 0⟩ := by
    unfold check_position
    rw [if_neg]
    push_neg
    constructor
    · linarith
    · linarith
  simp only [body, hfront, hback, hcheck]
  norm_num

theorem loop_zero_fixed (c : Chair) (hleg : 0 < c.length_leg)
    (hchair : 0 < c.length_chair) (hlc : c.length_leg ≤ c.length_chair)
    (hangle : Real.arcsin (c.length_leg / c.length_chair) ≤ c.alpha_max) :
    ∀ n : ℕ, ∀ tm : ℝ,
      c.time - tm ≤ (n : ℝ) * (2 * (c.time_step + c.pause)) →
      loop c 0 0 n ⟨c.length_chair, 0, c.length_chair, 0, tm, 0⟩ =
        some (.ok 0) := by
  intro n
  induction n with
  | zero =>
    intro tm hb
    simp only [Nat.cast_zero, zero_mul] at hb
    simp only [loop]
    rw [if_neg (by linarith :
      ¬ (⟨c.length_chair, 0, c.length_chair, 0, tm, 0⟩ : St).timer < c.time)]
  | succ n ih =>
    intro tm hb
    simp only [loop]
    by_cases hcond :
      (⟨c.length_chair, 0, c.length_chair, 0, tm, 0⟩ : St).timer < c.time
    · rw [if_pos hcond]
      simp only [body_zero_fixed c hleg hchair hlc hangle]
      apply ih
      push_cast at hb ⊢
      linarith
    · rw [if_neg hcond]

/-- C1 (amended): for a valid configuration with nonnegative pause, the call
`move 0 0` returns `0` with no failure only under the additional resting
conditions `length_leg ≤ length_chair` and
`asin(length_leg / length_chair) ≤ alpha_max`; under those conditions it
does return `0`. -/
theorem move_zero_amended (c : Chair)
    (hleg : 0 < c.length_leg) (hchair : 0 < c.length_chair)
    (hts : 0 < c.time_step) (htime : 0 < c.time) (hp : 0 ≤ c.pause)
    (hlc : c.length_leg ≤ c.length_chair)
    (hangle : Real.arcsin (c.length_leg / c.length_chair) ≤ c.alpha_max) :
    c.move 0 0 = some (.ok 0) := by
  have h2 : (0:ℝ) < 2 * (c.time_step + c.pause) := by linarith
  have h3 : c.time / (2 * (c.time_step + c.pause)) ≤ (fuel c : ℝ) :=
    Nat.le_ceil (c.time / (2 * (c.time_step + c.pause)))
  have h4 : c.time ≤ (fuel c : ℝ) * (2 * (c.time_step + c.pause)) :=
    (div_le_iff h2).mp h3
  have hb : c.time - (0:ℝ) ≤ (fuel c : ℝ) * (2 * (c.time_step + c.pause)) := by
    linarith
  exact loop_zero_fixed c hleg hchair hlc hangle (fuel c) 0 hb

/-- Witness for the amended C1 at the high-friction configuration. -/
theorem move_zero_amended_w : chairB.move 0 0 = some (.ok 0) :=
  move_zero_amended chairB (by norm_num [chairB]) (by norm_num [chairB])
    (by norm_num [chairB]) (by norm_num [chairB]) (by norm_num [chairB])
    (by norm_num [chairB])
    (by
      have h := arcsin_half_le_arctan_two
      simpa [chairB, Chair.alpha_max] using h)

/-! ### C2: the reference run with both displacements 1/2 -/

theorem ref_tan_val :
    Real.tan (Real.arccos (1 / 2 / 60)) * (1 / 2) = Real.sqrt 14399 / 2 := by
  rw [Real.tan_arccos]
  have h1 : (1:ℝ) - (1 / 2 / 60) ^ 2 = 14399 / 14400 := by norm_num
  rw [h1, Real.sqrt_div (by norm_num : (0:ℝ) ≤ 14399)]
  have h2 : Real.sqrt 14400 = 120 := by
    rw [show (14400:ℝ) = 120 ^ 2 by norm_num]
    exact Real.sqrt_sq (by norm_num)
  rw [h2]
  have h3 : (0:ℝ) ≤ Real.sqrt 14399 := Real.sqrt_nonneg _
  field_simp
  ring

theorem ref_arg_bounds :
    0 ≤ (60 - Real.sqrt 14399 / 2) / 80 ∧
    (60 - Real.sqrt 14399 / 2) / 80 ≤ 1 / 160 := by
  have h119 : (119:ℝ) ≤ Real.sqrt 14399 :=
    le_sqrt_of_sq_le 119 14399 (by norm_num) (by norm_num)
  have h120 : Real.sqrt 14399 ≤ 120 :=
    sqrt_le_of_sq_le 14399 120 (by norm_num) (by norm_num)
  constructor
  · apply div_nonneg _ (by norm_num)
    linarith
  · rw [div_le_div_iff (by norm_num) (by norm_num)]
    linarith

/-- The tilt-angle expression of the reference configuration at any
half-step whose seat edge is `1/2` away from the advanced leg. -/
theorem angleOf_ref_half (edge leg : ℝ) (h : |edge - leg| = 1 / 2) :
    angleOf refChair edge leg (1 / 2) =
      .ok (Real.arcsin ((60 - Real.sqrt 14399 / 2) / 80)) := by
  have hb := ref_arg_bounds
  have e1 : |edge - leg| / refChair.length_leg = 1 / 2 / 60 := by
    rw [h]
    norm_num [refChair]
  unfold angleOf pyAcos
  rw [e1, if_pos (by norm_num : (-1:ℝ) ≤ 1 / 2 / 60 ∧ (1:ℝ) / 2 / 60 ≤ 1)]
  show pyAsin ((refChair.length_leg -
    Real.tan (Real.arccos (1 / 2 / 60)) * (1 / 2)) / refChair.length_chair) = _
  rw [ref_tan_val]
  have e2 : (refChair.length_leg - Real.sqrt 14399 / 2) / refChair.length_chair =
      (60 - Real.sqrt 14399 / 2) / 80 := by norm_num [refChair]
  rw [e2]
  unfold pyAsin
  rw [if_pos ⟨by linarith [hb.1], by linarith [hb.2]⟩]

theorem ref_step_angle_le :
    Real.arcsin ((60 - Real.sqrt 14399 / 2) / 80) ≤ refChair.alpha_max := by
  have hb := ref_arg_bounds
  have harctan : refChair.alpha_max =
      Real.arcsin (1 / 10 / Real.sqrt (1 + (1 / 10) ^ 2)) := by
    show Real.arctan (1 / 10) = _
    exact Real.arctan_eq_arcsin (1 / 10)
  rw [harctan]
  apply Real.monotone_arcsin
  have hs : Real.sqrt (1 + (1 / 10) ^ 2) ≤ 11 / 10 :=
    sqrt_le_of_sq_le _ _ (by norm_num) (by norm_num)
  have hs0 : (0:ℝ) < Real.sqrt (1 + (1 / 10) ^ 2) := by
    have := le_sqrt_of_sq_le 1 (1 + (1 / 10) ^ 2) (by norm_num) (by norm_num)
    linarith
  have hr : (1:ℝ) / 11 ≤ 1 / 10 / Real.sqrt (1 + (1 / 10) ^ 2) := by
    rw [le_div_iff hs0]
    nlinarith
  calc (60 - Real.sqrt 14399 / 2) / 80 ≤ 1 / 160 := hb.2
  _ ≤ 1 / 11 := by norm_num
  _ ≤ _ := hr

/-- One loop iteration of the reference run with both displacements `1/2`,
from a state displaced by `p`: every position advances by `1/2`, the timer
by `8`, the accumulated distance by `1/2`. -/
theorem body_ref_half (p t w : ℝ) :
    body refChair (1 / 2) (1 / 2) ⟨80 + p, p, 80 + p, p, t, w⟩ =
      .ok ⟨80 + (p + 1 / 2), p + 1 / 2, 80 + (p + 1 / 2), p + 1 / 2,
        t + 8, w + 1 / 2⟩ := by
  have hfront : frontHalf refChair (1 / 2) ⟨80 + p, p, 80 + p, p, t, w⟩ =
      .ok ⟨80 + p + 1 / 2, p, 80 + p + 1 / 2, p,
        t + (refChair.time_step + refChair.pause), w + 1 / 2⟩ := by
    have hA : angleOf refChair (80 + p) (80 + p + 1 / 2) (1 / 2) =
        .ok (Real.arcsin ((60 - Real.sqrt 14399 / 2) / 80)) := by
      apply angleOf_ref_half
      rw [show (80:ℝ) + p - (80 + p + 1 / 2) = -(1 / 2) by ring, abs_neg]
      norm_num
    simp only [frontHalf, hA]
    rw [if_neg (not_lt.mpr ref_step_angle_le)]
  have hback : backHalf refChair (1 / 2) (1 / 2)
      ⟨80 + p + 1 / 2, p, 80 + p + 1 / 2, p,
        t + (refChair.time_step + refChair.pause), w + 1 / 2⟩ =
      .ok ⟨80 + p + 1 / 2, p + 1 / 2, 80 + p + 1 / 2, p + 1 / 2,
        t + (refChair.time_step + refChair.pause) +
          (refChair.time_step + refChair.pause), w + 1 / 2⟩ := by
    have hA : angleOf refChair (p + 1 / 2) p (1 / 2) =
        .ok (Real.arcsin ((60 - Real.sqrt 14399 / 2) / 80)) := by
      apply angleOf_ref_half
      rw [show p + 1 / 2 - p = (1:ℝ) / 2 by ring]
      norm_num
    simp only [backHalf, hA]
    rw [if_neg (not_lt.mpr ref_step_angle_le)]
  have hcheck : check_position
      ⟨80 + p + 1 / 2, p + 1 / 2, 80 + p + 1 / 2, p + 1 / 2,
        t + (refChair.time_step + refChair.pause) +
          (refChair.time_step + refChair.pause), w + 1 / 2⟩ =
      .ok ⟨80 + p + 1 / 2, p + 1 / 2, 80 + p + 1 / 2, p + 1 / 2,
        t + (refChair.time_step + refChair.pause) +
          (refChair.time_step + refChair.pause), w + 1 / 2⟩ := by
    unfold check_position
    rw [if_neg]
    push_neg
    constructor
    · linarith
    · linarith
  simp only [body, hfront, hback, hcheck]
  norm_num [refChair, St.mk.injEq]
  constructor <;> ring

theorem loop_ref :
    ∀ n : ℕ, ∀ k : ℕ, n + k = 125 →
      loop refChair (1 / 2) (1 / 2) n
        ⟨80 + (k : ℝ) * (1 / 2), (k : ℝ) * (1 / 2), 80 + (k : ℝ) * (1 / 2),
          (k : ℝ) * (1 / 2), (k : ℝ) * 8, (k : ℝ) * (1 / 2)⟩ =
      some (.ok (125 * (1 / 2))) := by
  intro n
  induction n with
  | zero =>
    intro k hk
    have hk125 : k = 125 := by omega
    subst hk125
    simp only [loop]
    rw [if_neg (by push_cast; norm_num [refChair] :
      ¬ (⟨80 + (125 : ℕ) * ((1:ℝ) / 2), (125 : ℕ) * ((1:ℝ) / 2),
          80 + (125 : ℕ) * ((1:ℝ) / 2), (125 : ℕ) * ((1:ℝ) / 2),
          ((125 : ℕ) : ℝ) * 8, ((125 : ℕ) : ℝ) * (1 / 2)⟩ : St).timer <
        refChair.time)]
    push_cast
    norm_num
  | succ n ih =>
    intro k hk
    have hkle : k ≤ 124 := by omega
    have hklt : ((k : ℝ)) * 8 < refChair.time := by
      have : (k : ℝ) ≤ 124 := by exact_mod_cast hkle
      norm_num [refChair]
      linarith
    simp only [loop]
    rw [if_pos hklt]
    rw [body_ref_half ((k : ℝ) * (1 / 2)) ((k : ℝ) * 8) ((k : ℝ) * (1 / 2))]
    have hrec : (⟨80 + ((k : ℝ) * (1 / 2) + 1 / 2), (k : ℝ) * (1 / 2) + 1 / 2,
        80 + ((k : ℝ) * (1 / 2) + 1 / 2), (k : ℝ) * (1 / 2) + 1 / 2,
        (k : ℝ) * 8 + 8, (k : ℝ) * (1 / 2) + 1 / 2⟩ : St) =
        ⟨80 + ((k + 1 : ℕ) : ℝ) * (1 / 2), ((k + 1 : ℕ) : ℝ) * (1 / 2),
          80 + ((k + 1 : ℕ) : ℝ) * (1 / 2), ((k + 1 : ℕ) : ℝ) * (1 / 2),
          ((k + 1 : ℕ) : ℝ) * 8, ((k + 1 : ℕ) : ℝ) * (1 / 2)⟩ := by
      push_cast
      simp only [St.mk.injEq]
      refine ⟨by ring, by ring, by ring, by ring, by ring, by ring⟩
    rw [hrec]
    exact ih (k + 1) (by omega)

/-- C2: at the reference configuration, `move (1/2) (1/2)` completes with no
failure and returns `62.5 = (1/2) * 125`, one front half-step per each of
the `totalTime / (2 * (timeStep + pauseDuration)) = 125` loop iterations. -/
theorem move_ref_half : refChair.move (1 / 2) (1 / 2) = some (.ok 62.5) := by
  show loop refChair (1 / 2) (1 / 2) (fuel refChair) refChair.init = _
  rw [fuel_ref]
  have h0 := loop_ref 125 0 (by omega)
  have hrec : (⟨80 + ((0 : ℕ) : ℝ) * (1 / 2), ((0 : ℕ) : ℝ) * (1 / 2),
      80 + ((0 : ℕ) : ℝ) * (1 / 2), ((0 : ℕ) : ℝ) * (1 / 2),
      ((0 : ℕ) : ℝ) * 8, ((0 : ℕ) : ℝ) * (1 / 2)⟩ : St) = refChair.init := by
    push_cast
    norm_num [Chair.init, refChair]
  rw [hrec] at h0
  rw [h0]
  norm_num

/-! ### C8: monotonicity of the first front angle, and large steps -/

/-- For `0 < w ≤ L`, the term `tan(acos(w / L)) * w` equals
`sqrt(L^2 - w^2)`. -/
theorem tan_acos_scaled (L w : ℝ) (hL : 0 < L) (hw : 0 < w) (hwL : w ≤ L) :
    Real.tan (Real.arccos (w / L)) * w = Real.sqrt (L ^ 2 - w ^ 2) := by
  rw [Real.tan_arccos]
  have h1 : (1:ℝ) - (w / L) ^ 2 = (L ^ 2 - w ^ 2) / L ^ 2 := by
    field_simp
  rw [h1, Real.sqrt_div (by nlinarith : (0:ℝ) ≤ L ^ 2 - w ^ 2)]
  rw [Real.sqrt_sq hL.le]
  field_simp

/-- Closed form of the first front half-step angle for a positive
displacement not exceeding `length_leg`. -/
theorem firstFrontAngle_eval (c : Chair) (w : ℝ) (hleg : 0 < c.length_leg)
    (hw : 0 < w) (hwl : w ≤ c.length_leg) :
    firstFrontAngle c w =
      pyAsin ((c.length_leg - Real.sqrt (c.length_leg ^ 2 - w ^ 2)) /
        c.length_chair) := by
  simp only [firstFrontAngle, angleOf, Chair.init]
  have habs : |c.length_chair - (c.length_chair + w)| / c.length_leg =
      w / c.length_leg := by
    rw [show c.length_chair - (c.length_chair + w) = -w by ring, abs_neg,
      abs_of_pos hw]
  rw [habs]
  unfold pyAcos
  rw [if_pos ⟨le_trans (by norm_num) (div_nonneg hw.le hleg.le),
    (div_le_one hleg).mpr hwl⟩]
  show pyAsin ((c.length_leg - Real.tan (Real.arccos (w / c.length_leg)) * w) /
    c.length_chair) = _
  rw [tan_acos_scaled c.length_leg w hleg hw hwl]

/-- Concrete evaluation of the first front angle of the reference
configuration at `w = 1/2`. -/
theorem firstFrontAngle_ref_half :
    firstFrontAngle refChair (1 / 2) =
      .ok (Real.arcsin ((60 - Real.sqrt 14399 / 2) / 80)) := by
  unfold firstFrontAngle
  apply angleOf_ref_half
  rw [show refChair.init.pos_chair_1 - (refChair.init.pos_1 + 1 / 2) =
    -(1 / 2) by norm_num [Chair.init, refChair], abs_neg]
  norm_num

/-- C8 counterexample: at the reference configuration, raising the front
step from `0` to `1/2` strictly decreases the computed first front angle
(and its magnitude); the zero step gives `asin(3/4)`, the positive step a
value below `asin(1/160)`. -/
theorem firstFrontAngle_not_monotone :
    firstFrontAngle refChair 0 = .ok (Real.arcsin (3 / 4)) ∧
    firstFrontAngle refChair (1 / 2) =
      .ok (Real.arcsin ((60 - Real.sqrt 14399 / 2) / 80)) ∧
    |Real.arcsin ((60 - Real.sqrt 14399 / 2) / 80)| <
      |Real.arcsin (3 / 4)| := by
  have hb := ref_arg_bounds
  refine ⟨refAngle_zero, firstFrontAngle_ref_half, ?_⟩
  have h1 : Real.arcsin ((60 - Real.sqrt 14399 / 2) / 80) <
      Real.arcsin (3 / 4) :=
    Real.strictMonoOn_arcsin
      (Set.mem_Icc.mpr ⟨by linarith [hb.1], by linarith [hb.2]⟩)
      (Set.mem_Icc.mpr ⟨by norm_num, by norm_num⟩)
      (by linarith [hb.2])
  rw [abs_of_nonneg (Real.arcsin_nonneg.mpr hb.1),
    abs_of_nonneg (Real.arcsin_nonneg.mpr (by norm_num : (0:ℝ) ≤ 3 / 4))]
  exact h1

/-- C8 (amended): the first front angle is monotone in the front step over
positive steps up to `length_leg` (it is not monotone from `0`, where the
`tan` factor is multiplied by zero); and every front step larger than
`length_leg` makes `move` fail at once — with the generic `math` domain
error, not necessarily `AngleExceeded`. -/
theorem first_angle_monotone_amended :
    (∀ c : Chair, ∀ w wp a b : ℝ,
      0 < c.length_leg → 0 < c.length_chair → 0 < w → w ≤ wp →
      wp ≤ c.length_leg →
      firstFrontAngle c w = .ok a → firstFrontAngle c wp = .ok b →
      |a| ≤ |b|) ∧
    (∀ c : Chair, ∀ way_1 way_2 : ℝ,
      0 < c.length_leg → 0 < c.time_step → 0 < c.time → 0 ≤ c.pause →
      c.length_leg < way_1 →
      c.move way_1 way_2 = some (.error (.mathDomainError
        { c.init with pos_1 := c.init.pos_1 + way_1 }))) := by
  constructor
  · intro c w wp a b hleg hchair hw hwwp hwpl ha hb
    have hwl : w ≤ c.length_leg := le_trans hwwp hwpl
    have hwp0 : 0 < wp := lt_of_lt_of_le hw hwwp
    rw [firstFrontAngle_eval c w hleg hw hwl] at ha
    rw [firstFrontAngle_eval c wp hleg hwp0 hwpl] at hb
    have hsw : Real.sqrt (c.length_leg ^ 2 - w ^ 2) ≤ c.length_leg :=
      sqrt_le_of_sq_le _ _ hleg.le (by nlinarith)
    have hswp : Real.sqrt (c.length_leg ^ 2 - wp ^ 2) ≤
        Real.sqrt (c.length_leg ^ 2 - w ^ 2) :=
      Real.sqrt_le_sqrt (by nlinarith)
    unfold pyAsin at ha hb
    split_ifs at ha hb with h1 h2
    cases ha
    cases hb
    have hargw : (0:ℝ) ≤
        (c.length_leg - Real.sqrt (c.length_leg ^ 2 - w ^ 2)) /
          c.length_chair :=
      div_nonneg (by linarith) hchair.le
    have hargwp : (0:ℝ) ≤
        (c.length_leg - Real.sqrt (c.length_leg ^ 2 - wp ^ 2)) /
          c.length_chair :=
      div_nonneg (by linarith) hchair.le
    rw [abs_of_nonneg (Real.arcsin_nonneg.mpr hargw),
      abs_of_nonneg (Real.arcsin_nonneg.mpr hargwp)]
    apply Real.monotone_arcsin
    apply (div_le_div_right hchair).mpr
    linarith
  · intro c way_1 way_2 hleg hts htime hp hlarge
    have hfuel1 : 1 ≤ fuel c := by
      unfold fuel
      rw [Nat.one_le_ceil_iff]
      exact div_pos htime (by linarith)
    obtain ⟨m, hm⟩ : ∃ m, fuel c = m + 1 := ⟨fuel c - 1, by omega⟩
    have hfar : c.length_leg < |c.init.pos_chair_1 - (c.init.pos_1 + way_1)| := by
      rw [show c.init.pos_chair_1 - (c.init.pos_1 + way_1) = -way_1 by
        simp [Chair.init], abs_neg]
      exact lt_of_lt_of_le hlarge (le_abs_self way_1)
    have hbody : body c way_1 way_2 c.init = .error (.mathDomainError
        { c.init with pos_1 := c.init.pos_1 + way_1 }) := by
      simp only [body, frontHalf_far c way_1 c.init hleg hfar]
    show loop c way_1 way_2 (fuel c) c.init = _
    rw [hm]
    simp only [loop, hbody]
    rw [if_pos (by simpa [Chair.init] using htime :
      (c.init).timer < c.time)]

/-- Witness for the amended C8: the monotone part instantiated at the
reference configuration with `w = wp = 1/2`, and the large-step part at
`way_1 = 200 > 60`. -/
theorem first_angle_monotone_amended_w :
    |Real.arcsin ((60 - Real.sqrt 14399 / 2) / 80)| ≤
      |Real.arcsin ((60 - Real.sqrt 14399 / 2) / 80)| ∧
    refChair.move 200 0 = some (.error (.mathDomainError
      { refChair.init with pos_1 := refChair.init.pos_1 + 200 })) :=
  ⟨first_angle_monotone_amended.1 refChair (1 / 2) (1 / 2) _ _
      (by norm_num [refChair]) (by norm_num [refChair]) (by norm_num)
      (le_refl _) (by norm_num [refChair])
      firstFrontAngle_ref_half firstFrontAngle_ref_half,
    first_angle_monotone_amended.2 refChair 200 0
      (by norm_num [refChair]) (by norm_num [refChair])
      (by norm_num [refChair]) (by norm_num [refChair])
      (by norm_num [refChair])⟩

end StoolWalk
